import Mathlib

/-!
Verification of the spawnr cluster connection manager.

This file is a shallow embedding, in Lean 4, of the parts of the spawnr
source that the specification talks about:

* the Go string helpers used by the code (`strings.Contains`,
  `strings.Split`, `strings.Trim`, `strings.TrimRight`, `strings.TrimSpace`,
  `strings.ToLower`, `strings.ReplaceAll`) are modelled on `List Char`,
  with structural recursion so that concrete runs reduce in the kernel;
* the cluster descriptor store (Kubernetes secrets labelled
  `spawnr.io/cluster=true` in one namespace) is modelled as a `List Secret`;
* the external effects (`rest.InClusterConfig`, `kubernetes.NewForConfig`,
  the `aws eks describe-cluster` / `aws eks get-token` subprocesses, secret
  update success) are modelled as an explicit environment record `Env`
  supplying the outcome of each call, so the functions of the source become pure
  functions of `Env`, the store, and their arguments;
* the handler layer (`SwitchCluster`, `DeleteCluster`, and the resource
  operation handlers of `internal/handlers`) is modelled with explicit
  state passing; the shared `h.k8sClient` field read under `clientMu` is
  modelled as a time-indexed registry `Nat → Client` for the resource
  operations, and as an explicit `HandlersState` for the switch operation.
-/

namespace Spawnr

/-! ## Go string helpers, modelled on character lists -/

/-- Helper for `goContains`: does `sub` occur in the character list? -/
def goContainsList (sub : List Char) : List Char → Bool
  | [] => sub.isEmpty
  | c :: rest => sub.isPrefixOf (c :: rest) || goContainsList sub rest

/-- Go `strings.Contains(s, sub)`. -/
def goContains (s sub : String) : Bool :=
  goContainsList sub.toList s.toList

/-- Fuel-driven worker for `goSplit`.  The fuel is an upper bound on the
number of characters consumed; with fuel `l.length + 1` and a non-empty
separator it never runs out. -/
def splitFuel (sep : List Char) : Nat → List Char → List Char → List (List Char)
  | 0, l, acc => [acc.reverse ++ l]
  | _ + 1, [], acc => [acc.reverse]
  | fuel + 1, c :: rest, acc =>
    if sep.isPrefixOf (c :: rest) then
      acc.reverse :: splitFuel sep fuel (List.drop sep.length (c :: rest)) []
    else
      splitFuel sep fuel rest (c :: acc)

/-- Go `strings.Split(s, sep)`: splits around every non-overlapping
occurrence of `sep`, left to right; with empty `sep` Go splits after every
rune. -/
def goSplit (s sep : String) : List String :=
  if sep = "" then s.toList.map fun c => String.mk [c]
  else (splitFuel sep.toList (s.toList.length + 1) s.toList []).map fun l => String.mk l

/-- Go `strings.Trim(s, cutset)`: removes leading and trailing characters
belonging to `cutset`. -/
def goTrim (s cutset : String) : String :=
  String.mk
    (((s.toList.dropWhile fun c => cutset.toList.contains c).reverse.dropWhile
      fun c => cutset.toList.contains c).reverse)

/-- Go `strings.TrimRight(s, cutset)`: removes trailing characters belonging
to `cutset`. -/
def goTrimRight (s cutset : String) : String :=
  String.mk ((s.toList.reverse.dropWhile fun c => cutset.toList.contains c).reverse)

/-- Go `strings.TrimSpace(s)`. -/
def goTrimSpace (s : String) : String :=
  String.mk
    (((s.toList.dropWhile Char.isWhitespace).reverse.dropWhile Char.isWhitespace).reverse)

/-- Go `strings.ToLower(s)`.  `Char.toLower` lowers the ASCII range, which
is the range the job-name sanitizer cares about (every non-ASCII character
is removed by the later filtering step in any caller of this model). -/
def goToLower (s : String) : String :=
  String.mk (s.toList.map Char.toLower)

/-- Go `strings.ReplaceAll(s, old, new)`, which equals
`strings.Join(strings.Split(s, old), new)`. -/
def goReplaceAll (s old new : String) : String :=
  String.intercalate new (goSplit s old)

/-! ## Job name sanitization (`sanitizeJobName` in `internal/handlers`) -/

/-- Character class of the Go regexp `[a-z0-9]`. -/
def isLowerAlnum (c : Char) : Bool :=
  ('a' ≤ c && c ≤ 'z') || ('0' ≤ c && c ≤ '9')

/-- Character class of the Go regexp `[a-z0-9-]`, the complement of the
class removed by `[^a-z0-9-]`. -/
def isNameChar (c : Char) : Bool :=
  isLowerAlnum c || c == '-'

/-- The `reg.ReplaceAllString(name, "")` line for the regexp `[^a-z0-9-]`:
delete every character outside `[a-z0-9-]`. -/
def removeInvalidChars (s : String) : String :=
  String.mk (s.toList.filter isNameChar)

/-- The `reg.ReplaceAllString(name, "")` line for the regexp `^[a-z0-9]+`
complement: strip the leading run of characters outside `[a-z0-9]`. -/
def stripLeadingNonAlnum (s : String) : String :=
  String.mk (s.toList.dropWhile fun c => !isLowerAlnum c)

/-- The `if len(name) > 63 { name = name[:63] }` lines.  Go counts bytes,
but every character reaching this stage is single-byte ASCII. -/
def truncate63 (s : String) : String :=
  if s.toList.length > 63 then String.mk (s.toList.take 63) else s

/-- The final `if name == "" { name = "job" }` lines. -/
def fallbackJob (s : String) : String :=
  if s = "" then "job" else s

/-- The `sanitizeJobName` function of `internal/handlers/handlers.go`,
with one named stage per Go statement, composed in source order:
lowercase; replace spaces and underscores with hyphens; delete every
character outside `[a-z0-9-]`; trim hyphens at both ends; strip a leading
run of non-alphanumerics; truncate to 63; trim trailing hyphens again;
fall back to `"job"` when nothing is left. -/
def sanitizeJobName (name : String) : String :=
  fallbackJob
    (goTrimRight
      (truncate63
        (stripLeadingNonAlnum
          (goTrim
            (removeInvalidChars
              (goReplaceAll (goReplaceAll (goToLower name) " " "-") "_" "-"))
            "-")))
      "-")

/-- Written from the claim, not from the source: a valid Kubernetes
resource name is non-empty, at most 63 characters, made of lowercase ASCII
letters, digits and hyphens, and neither starts nor ends with a hyphen. -/
def isValidK8sName (s : String) : Bool :=
  !s.toList.isEmpty && Nat.ble s.toList.length 63 && s.toList.all isNameChar &&
  s.toList.head?.all (fun c => c != '-') && s.toList.getLast?.all (fun c => c != '-')

/-! ## Region derivation (inside `ListEKSClusters`) -/

/-- The region extraction of `ListEKSClusters`: split the endpoint on
`".eks."`, split the part before the first occurrence on `"."`, and when
that has at least two labels take the last one; otherwise `"unknown"`. -/
def regionFromEndpoint (endpoint : String) : String :=
  if goContains endpoint ".eks." then
    let parts := goSplit endpoint ".eks."
    if parts.length > 0 then
      let beforeEks := goSplit (parts.headD "") "."
      if beforeEks.length ≥ 2 then beforeEks.getLastD "unknown"
      else "unknown"
    else "unknown"
  else "unknown"

/-! ## Data model: descriptors, client configurations, clients -/

/-- A persisted cluster connection descriptor: one Kubernetes secret
labelled `spawnr.io/cluster=true`.  `name` is the object name of the secret;
the remaining fields are the entries of `secret.Data` read by the source
(`cluster-name`, `friendly-name`, `role-arn`, `endpoint`,
`certificate-authority-data`); a missing entry reads as `""` in Go, so an
absent trust anchor is the empty string. -/
structure Secret where
  name : String
  clusterName : String
  friendlyName : String
  roleArn : String
  endpoint : String
  certificateAuthority : String
deriving DecidableEq

/-- The fields of a `rest.Config` that the source sets or reads: the server
host, the bearer token, the certificate-authority data and the
skip-verification flag of the transport. -/
structure RestConfig where
  host : String
  bearerToken : String := ""
  certificateAuthorityData : String := ""
  insecureSkipTLSVerify : Bool := false
deriving DecidableEq

/-- The `k8s.Client` of the source: a clientset built from a `rest.Config`.
The clientset itself is determined by the config, so the handle is the
config. -/
structure Client where
  config : RestConfig
deriving DecidableEq

/-- The `k8s.ClusterInfo` record returned by the listing. -/
structure ClusterInfo where
  name : String
  region : String
  endpoint : String
  status : String
  profile : String
  originalName : String
deriving DecidableEq

/-- Secret lookup by object name (the Kubernetes `Secrets(ns).Get` call). -/
def findSecret (store : List Secret) (name : String) : Option Secret :=
  store.find? fun s => s.name == name

/-- Secret replacement by object name (the Kubernetes `Secrets(ns).Update`
call). -/
def updateStore (store : List Secret) (name : String) (v : Secret) : List Secret :=
  store.map fun s => if s.name == name then v else s

/-! ## The environment: outcomes of every external call -/

/-- Outcomes of all external effects performed by the source, supplied as
data.  Subprocess fields give the observable result of the call:
`describeCluster` is the stdout (`.ok`) or stderr (`.error`) of
`aws eks describe-cluster --query cluster.certificateAuthority.data`;
`getToken` is the token parsed out of `aws eks get-token` output, with
`.error` covering both a failing command and unparsable JSON. -/
structure Env where
  inCluster : Bool
  inClusterConfig : RestConfig
  kubeconfigConfig : Except String RestConfig
  clientsetOk : Bool
  listSecretsOk : Bool
  describeCluster : String → String → Except String String
  getToken : String → String → Except String String
  updateSecretOk : String → Bool
  buildClientConfigOk : Bool

/-- The `rest.InClusterConfig()`-with-kubeconfig-fallback preamble that
every store-touching function of the source repeats: in cluster, use the
ambient config; otherwise build from the developer kubeconfig file. -/
def baseConfig (env : Env) : Except String RestConfig :=
  if env.inCluster then .ok env.inClusterConfig else env.kubeconfigConfig

/-! ## Identity exchange adapter (`fetchClusterCertificate`) -/

/-- The `fetchClusterCertificate` function: run
`aws eks describe-cluster --name c --role-arn r` (outcome supplied by the
environment), trim the output, and treat an empty or `"None"` result as an
error. -/
def fetchClusterCertificate (env : Env) (clusterName roleArn : String) :
    Except String String :=
  match env.describeCluster clusterName roleArn with
  | .error stderr => .error ("aws eks describe-cluster failed: " ++ stderr)
  | .ok output =>
    let caCert := goTrimSpace output
    if caCert = "" || caCert = "None" then
      .error "no CA certificate returned from AWS"
    else
      .ok caCert

/-! ## Client resolver (`getKubeconfigForCluster`, `NewClientWithCluster`) -/

/-- The `getKubeconfigForCluster` function: for `"local"` return the
ambient (or kubeconfig-fallback) configuration; otherwise look the
descriptor up in the store, exchange the role for a token, and assemble a
throwaway configuration that verifies against the stored trust anchor when
present and skips TLS verification when the anchor is empty. -/
def getKubeconfigForCluster (env : Env) (store : List Secret) (clusterName : String) :
    Except String RestConfig :=
  if clusterName = "local" then
    match baseConfig env with
    | .error e => .error ("failed to create Kubernetes config: " ++ e)
    | .ok config => .ok config
  else
    match baseConfig env with
    | .error e => .error ("failed to create Kubernetes config: " ++ e)
    | .ok _ =>
      if !env.clientsetOk then .error "failed to create Kubernetes clientset"
      else
        match findSecret store clusterName with
        | none => .error ("failed to get cluster secret " ++ clusterName)
        | some secret =>
          match env.getToken secret.clusterName secret.roleArn with
          | .error e =>
            .error ("failed to get EKS token for cluster " ++ secret.clusterName ++ ": " ++ e)
          | .ok token =>
            let clusterConfig : RestConfig :=
              if secret.certificateAuthority ≠ "" then
                { host := secret.endpoint, bearerToken := token,
                  certificateAuthorityData := secret.certificateAuthority,
                  insecureSkipTLSVerify := false }
              else
                { host := secret.endpoint, bearerToken := token,
                  certificateAuthorityData := "",
                  insecureSkipTLSVerify := true }
            if env.buildClientConfigOk then .ok clusterConfig
            else .error "failed to create client config"

/-- The `NewClientWithClusterAndProfile` function: a named cluster goes
through `getKubeconfigForCluster`; an empty name uses the ambient
(or kubeconfig-fallback) configuration; then the clientset is built. -/
def NewClientWithClusterAndProfile (env : Env) (store : List Secret)
    (clusterName _profile : String) : Except String Client :=
  if clusterName ≠ "" then
    match getKubeconfigForCluster env store clusterName with
    | .error e => .error ("failed to get kubeconfig for cluster " ++ clusterName ++ ": " ++ e)
    | .ok config =>
      if env.clientsetOk then .ok { config := config }
      else .error "failed to create Kubernetes clientset"
  else
    match baseConfig env with
    | .error e => .error ("failed to create Kubernetes config: " ++ e)
    | .ok config =>
      if env.clientsetOk then .ok { config := config }
      else .error "failed to create Kubernetes clientset"

/-- The `NewClientWithCluster` wrapper. -/
def NewClientWithCluster (env : Env) (store : List Secret) (clusterName : String) :
    Except String Client :=
  NewClientWithClusterAndProfile env store clusterName ""

/-! ## Descriptor store operations (`CreateClusterSecret`, `DeleteClusterSecret`) -/

/-- The secret object `CreateClusterSecret` builds: named after the
cluster, carrying the five data entries (the certificate entry is present
only when non-empty, and a missing entry reads back as `""`). -/
def mkStoredSecret (clusterName friendlyName roleArn endpoint certificateAuthority : String) :
    Secret :=
  { name := clusterName, clusterName := clusterName, friendlyName := friendlyName,
    roleArn := roleArn, endpoint := endpoint,
    certificateAuthority := certificateAuthority }

/-- The `CreateClusterSecret` function: when the caller supplies no
certificate authority it first tries `fetchClusterCertificate`, keeping an
empty anchor only when that fetch fails; it then creates the labelled
secret, failing when a secret of that name already exists. -/
def CreateClusterSecret (env : Env) (store : List Secret)
    (clusterName friendlyName roleArn endpoint certificateAuthority : String) :
    Except String (List Secret) :=
  let certificateAuthority :=
    if certificateAuthority = "" then
      match fetchClusterCertificate env clusterName roleArn with
      | .error _ => certificateAuthority
      | .ok caCert => caCert
    else certificateAuthority
  match baseConfig env with
  | .error e => .error ("failed to create Kubernetes config: " ++ e)
  | .ok _ =>
    if !env.clientsetOk then .error "failed to create Kubernetes clientset"
    else
      let secret : Secret :=
        mkStoredSecret clusterName friendlyName roleArn endpoint certificateAuthority
      if (findSecret store clusterName).isSome then
        .error "failed to create cluster secret: secrets already exists"
      else
        .ok (store ++ [secret])

/-- The `DeleteClusterSecret` function: build the client, then delete the
secret of that name; the Kubernetes delete call fails when no such secret
exists.  The function applies no reserved-identity check of its own. -/
def DeleteClusterSecret (env : Env) (store : List Secret) (clusterName : String) :
    Except String (List Secret) :=
  match baseConfig env with
  | .error e => .error ("failed to create Kubernetes config: " ++ e)
  | .ok _ =>
    if !env.clientsetOk then .error "failed to create Kubernetes clientset"
    else if (findSecret store clusterName).isSome then
      .ok (store.filter fun s => s.name != clusterName)
    else
      .error "failed to delete cluster secret: secrets not found"

/-! ## Cluster listing with lazy healing (`ListEKSClusters`) -/

/-- The synthesized local entry that `ListEKSClusters` always prepends. -/
def localClusterInfo : ClusterInfo :=
  { name := "Local Cluster", region := "local", endpoint := "", status := "ACTIVE",
    profile := "in-cluster", originalName := "local" }

/-- The `ClusterInfo` built from one secret inside the listing loop.  Every
field is read from the secret data at the top of the loop iteration, so
healing the trust anchor does not change it. -/
def mkClusterInfoFromSecret (s : Secret) : ClusterInfo :=
  { name := s.friendlyName, region := regionFromEndpoint s.endpoint, endpoint := "",
    status := "ACTIVE", profile := "role-arn", originalName := s.clusterName }

/-- The healing guard of the listing loop: the stored trust anchor is
empty, a role is recorded, and the cluster name is non-empty. -/
def healCond (s : Secret) : Bool :=
  s.certificateAuthority == "" && s.roleArn != "" && s.clusterName != ""

/-- One healing step of the listing loop, applied to the store: when the
guard holds, fetch the certificate; on success write the healed secret
back (the write itself may fail, leaving the store as it was); on fetch
failure leave the store untouched. -/
def applyHeal (env : Env) (s : Secret) (store : List Secret) : List Secret :=
  if healCond s then
    match fetchClusterCertificate env s.clusterName s.roleArn with
    | .error _ => store
    | .ok caCert =>
      if env.updateSecretOk s.name then
        updateStore store s.name { s with certificateAuthority := caCert }
      else store
  else store

/-- Result of one `ListEKSClusters` call: the returned cluster list, the
store after the best-effort healing writes, and — as instrumentation for
the idempotence claim — the list of cluster names for which a trust-anchor
fetch was attempted. -/
structure ListClustersResult where
  clusters : List ClusterInfo
  store : List Secret
  fetched : List String
deriving DecidableEq

/-- The secret loop of `ListEKSClusters`: iterate over the listed snapshot,
heal each secret best-effort, and emit one `ClusterInfo` per secret. -/
def healLoop (env : Env) : List Secret → List Secret → ListClustersResult
  | [], store => { clusters := [], store := store, fetched := [] }
  | s :: rest, store =>
    let fetchedHere := if healCond s then [s.clusterName] else []
    let r := healLoop env rest (applyHeal env s store)
    { clusters := mkClusterInfoFromSecret s :: r.clusters, store := r.store,
      fetched := fetchedHere ++ r.fetched }

/-- The `ListEKSClusters` function: always start with the synthesized local
entry; when not in cluster, or the clientset or the secret listing fails,
return just that entry (never an error); otherwise walk the labelled
secrets, healing missing trust anchors best-effort.  The error result of the
Go function is always `nil`, so the model is total. -/
def ListEKSClusters (env : Env) (store : List Secret) : ListClustersResult :=
  let clusters := [localClusterInfo]
  if !env.inCluster then { clusters := clusters, store := store, fetched := [] }
  else if !env.clientsetOk then { clusters := clusters, store := store, fetched := [] }
  else if !env.listSecretsOk then { clusters := clusters, store := store, fetched := [] }
  else
    let r := healLoop env store store
    { clusters := clusters ++ r.clusters, store := r.store, fetched := r.fetched }

/-! ## Handler layer: switching and removing clusters -/

/-- Mutable handler state: the single currently installed client
(`h.k8sClient`), written only by `SwitchCluster` under the write lock. -/
structure HandlersState where
  k8sClient : Client
deriving DecidableEq

/-- The HTTP outcome of a handler, as far as the claims need it. -/
inductive ApiResponse
  | badRequest (msg : String)
  | internalError (msg : String)
  | ok (msg : String)
deriving DecidableEq

/-- The `SwitchCluster` handler: resolve a brand-new client first; on
failure answer 500 and leave the installed client untouched; on success
install the new client under the write lock. -/
def SwitchCluster (env : Env) (store : List Secret) (st : HandlersState)
    (request : Option String) : HandlersState × ApiResponse :=
  match request with
  | none => (st, .badRequest "Invalid request body")
  | some clusterName =>
    match NewClientWithCluster env store clusterName with
    | .error e => (st, .internalError e)
    | .ok newClient =>
      ({ st with k8sClient := newClient }, .ok ("Switched to cluster " ++ clusterName))

/-- The `DeleteCluster` handler: forward the path parameter directly to
`DeleteClusterSecret` and report its outcome.  No identity is
special-cased. -/
def DeleteCluster (env : Env) (store : List Secret) (name : String) :
    List Secret × ApiResponse :=
  match DeleteClusterSecret env store name with
  | .error e => (store, .internalError e)
  | .ok store' => (store', .ok "Cluster deleted successfully")

/-! ## Resource operation handlers

Each handler of `internal/handlers` takes the read lock, copies
`h.k8sClient` into a local variable, releases the lock, and runs the whole
operation against that copy.  The shared field under concurrent switches is
modelled as a registry `reg : Nat → Client` giving the installed client at
each instant; the single capture at the start of the handler is the read
`reg 0`.  The Kubernetes API itself is an environment of functions of the
client actually used. -/

/-- A deployment/job pod template as far as the job builder touches it. -/
structure Container where
  command : List String
  args : List String
deriving DecidableEq

/-- Pod template spec: labels, containers, restart policy. -/
structure PodTemplateSpec where
  labels : List (String × String)
  containers : List Container
  restartPolicy : String
deriving DecidableEq

/-- A deployment, reduced to the pod template the job builder copies. -/
structure Deployment where
  template : PodTemplateSpec
deriving DecidableEq

/-- A batch job as built by the `CreateJob` handler. -/
structure Job where
  name : String
  ns : String
  labels : List (String × String)
  template : PodTemplateSpec
deriving DecidableEq

/-- The body of a create-job request. -/
structure CreateJobRequest where
  ns : String
  deployment : String
  command : String
  jobName : String
deriving DecidableEq

/-- Go map assignment `m[k] = v` on an association list. -/
def upsert (l : List (String × String)) (k v : String) : List (String × String) :=
  if l.any (fun p => p.1 == k) then
    l.map fun p => if p.1 == k then (k, v) else p
  else l ++ [(k, v)]

/-- The job object the `CreateJob` handler builds from the pod template of
template: spawnr label on job and template, entrypoint override on the
first container, restart policy `Never`. -/
def buildJobFromDeployment (sanitizedName : String) (req : CreateJobRequest)
    (deployment : Deployment) : Job :=
  let template := deployment.template
  let template := { template with labels := upsert template.labels "app.kubernetes.io/managed-by" "spawnr" }
  let template :=
    { template with
      containers :=
        match template.containers with
        | [] => []
        | c :: rest => { c with command := ["/bin/sh", "-c"], args := [req.command] } :: rest }
  let template := { template with restartPolicy := "Never" }
  { name := sanitizedName, ns := req.ns,
    labels := [("app.kubernetes.io/managed-by", "spawnr")], template := template }

/-- Outcomes of the Kubernetes API calls the handlers make, each a function
of the client handle actually used for the call. -/
structure ApiEnv where
  listNamespaces : Client → Except String (List String)
  listDeployments : Client → String → Except String (List String)
  getDeployment : Client → String → String → Except String Deployment
  createJob : Client → String → Job → Except String Job
  getJob : Client → String → String → Except String Job
  deleteJob : Client → String → String → Except String Unit
  getJobLogs : Client → String → String → Except String String
  watchJobEvents : Client → String → String → Except String (List String)
  listAllSpawnrJobs : Client → Except String (List Job)

/-- The `GetNamespaces` handler: one client capture, then the call. -/
def GetNamespacesHandler (reg : Nat → Client) (api : ApiEnv) :
    Except String (List String) :=
  let client := reg 0
  api.listNamespaces client

/-- The `GetDeployments` handler. -/
def GetDeploymentsHandler (reg : Nat → Client) (api : ApiEnv) (ns : String) :
    Except String (List String) :=
  let client := reg 0
  api.listDeployments client (if ns = "" then "default" else ns)

/-- The `GetDeployment` handler. -/
def GetDeploymentHandler (reg : Nat → Client) (api : ApiEnv) (ns name : String) :
    Except String Deployment :=
  let client := reg 0
  api.getDeployment client ns name

/-- The `CreateJob` handler: sanitize the name, capture the client once,
fetch the deployment and create the job against that same client. -/
def CreateJobHandler (reg : Nat → Client) (api : ApiEnv) (req : CreateJobRequest) :
    Except String Job :=
  let sanitizedName := sanitizeJobName req.jobName
  let client := reg 0
  match api.getDeployment client req.ns req.deployment with
  | .error e => .error e
  | .ok deployment =>
    api.createJob client req.ns (buildJobFromDeployment sanitizedName req deployment)

/-- The `GetJob` handler. -/
def GetJobHandler (reg : Nat → Client) (api : ApiEnv) (ns name : String) :
    Except String Job :=
  let client := reg 0
  api.getJob client ns name

/-- The `DeleteJob` handler. -/
def DeleteJobHandler (reg : Nat → Client) (api : ApiEnv) (ns name : String) :
    Except String Unit :=
  let client := reg 0
  api.deleteJob client ns name

/-- The `GetJobLogs` handler; the pod lookup inside `Client.GetJobLogs`
happens on the same client value. -/
def GetJobLogsHandler (reg : Nat → Client) (api : ApiEnv) (ns name : String) :
    Except String String :=
  let client := reg 0
  api.getJobLogs client ns name

/-- The `WatchJob` handler; the watch goroutine holds the captured client
for its whole lifetime. -/
def WatchJobHandler (reg : Nat → Client) (api : ApiEnv) (ns name : String) :
    Except String (List String) :=
  let client := reg 0
  api.watchJobEvents client ns name

/-- The `GetAllJobs` handler; `Client.ListAllSpawnrJobs` iterates all
namespaces on the one captured client. -/
def GetAllJobsHandler (reg : Nat → Client) (api : ApiEnv) :
    Except String (List Job) :=
  let client := reg 0
  api.listAllSpawnrJobs client

/-! ## Concrete fixtures used by witnesses and counterexamples -/

/-- A fully healthy environment: running in cluster, clientset and
listing succeed, `aws eks describe-cluster` prints `CERTDATA`,
`aws eks get-token` yields `TOKEN`, secret updates succeed. -/
def envHappy : Env :=
  { inCluster := true
    inClusterConfig := { host := "https://in-cluster" }
    kubeconfigConfig := .ok { host := "https://kubeconfig" }
    clientsetOk := true
    listSecretsOk := true
    describeCluster := fun _ _ => .ok "CERTDATA"
    getToken := fun _ _ => .ok "TOKEN"
    updateSecretOk := fun _ => true
    buildClientConfigOk := true }

/-- Like `envHappy` except that `aws eks describe-cluster` fails with an
access-denied diagnostic, so trust-anchor fetches fail. -/
def envNoDescribe : Env :=
  { envHappy with describeCluster := fun _ _ => .error "AccessDenied" }

/-- A persisted descriptor whose trust anchor has not been healed yet. -/
def prodSecret : Secret :=
  { name := "prod-1", clusterName := "prod-1", friendlyName := "Prod",
    roleArn := "arn:aws:iam::1:role/x",
    endpoint := "https://ABCDEF.r1.eks.amazonaws.com", certificateAuthority := "" }

/-- A stored record that shadows the reserved identity `local`. -/
def localNamedSecret : Secret :=
  { name := "local", clusterName := "local", friendlyName := "Shadow",
    roleArn := "arn:aws:iam::1:role/y", endpoint := "https://h.example.com",
    certificateAuthority := "CERT" }

/-- The initially installed handler state for the switch fixtures. -/
def stInitial : HandlersState :=
  { k8sClient := { config := { host := "https://old-cluster" } } }

/-- A client other than the ones `regSwitched` starts from. -/
def clientA : Client := { config := { host := "https://cluster-a" } }

/-- A second distinct client, installed by a concurrent switch at time 1
in the `C2` witness. -/
def clientB : Client := { config := { host := "https://cluster-b" } }

/-- A registry that starts at `clientA` and is switched to `clientB`
just after the single capture by the handler. -/
def regSwitched : Nat → Client := fun t => if t = 0 then clientA else clientB

/-- A registry that stays at `clientA` forever. -/
def regConstant : Nat → Client := fun _ => clientA

/-- A concrete API whose answers depend on the client used, so that the
`C2` witness is sensitive to which handle the handler uses. -/
def apiProbe : ApiEnv :=
  { listNamespaces := fun c => .ok [c.config.host]
    listDeployments := fun c ns => .ok [c.config.host, ns]
    getDeployment := fun c _ _ => .ok { template := { labels := [("srv", c.config.host)], containers := [], restartPolicy := "" } }
    createJob := fun c _ j => .ok { j with labels := j.labels ++ [("srv", c.config.host)] }
    getJob := fun c ns n => .ok { name := n, ns := ns, labels := [("srv", c.config.host)], template := { labels := [], containers := [], restartPolicy := "" } }
    deleteJob := fun _ _ _ => .ok ()
    getJobLogs := fun c _ _ => .ok c.config.host
    watchJobEvents := fun c _ _ => .ok [c.config.host]
    listAllSpawnrJobs := fun _ => .ok [] }

/-- A concrete create-job request for the `C2` witness. -/
def reqProbe : CreateJobRequest :=
  { ns := "default", deployment := "web", command := "run", jobName := "My Job" }

/-! ## Shared lemmas -/

/-- The cluster list produced by the healing loop is exactly the snapshot,
mapped through `mkClusterInfoFromSecret`, independent of healing. -/
theorem healLoop_clusters (env : Env) (l : List Secret) :
    ∀ st : List Secret, (healLoop env l st).clusters = l.map mkClusterInfoFromSecret := by
  induction l with
  | nil => intro st; rfl
  | cons s rest ih => intro st; simp [healLoop, ih]

/-! ## C1: a failed switch preserves the installed client -/

/-- C1: if `SwitchCluster` fails to resolve a new client handle
(`NewClientWithCluster` returns an error), the handler state after the
call is the state before it — `current()` is unchanged. -/
theorem C1_failed_switch_preserves_client (env : Env) (store : List Secret)
    (st : HandlersState) (clusterName e : String)
    (h : NewClientWithCluster env store clusterName = .error e) :
    (SwitchCluster env store st (some clusterName)).1 = st := by
  simp [SwitchCluster, h]

/-- C1 witness: switching to the unregistered identity `prod-1` on an
empty store fails and leaves `stInitial` installed. -/
theorem C1_failed_switch_preserves_client_witness :
    (SwitchCluster envHappy [] stInitial (some "prod-1")).1 = stInitial :=
  C1_failed_switch_preserves_client envHappy [] stInitial "prod-1"
    "failed to get kubeconfig for cluster prod-1: failed to get cluster secret prod-1"
    rfl

/-! ## C5: region derivation from the endpoint -/

/-- C5: the EKS-style endpoint yields the label before `.eks.`, here
`us-west-2`; an endpoint without `.eks.` — such as
`https://example.com/api` and any other — yields `unknown`. -/
theorem C5_region_derivation :
    regionFromEndpoint "https://ABCDEF.gr7.us-west-2.eks.example.com" = "us-west-2" ∧
    regionFromEndpoint "https://example.com/api" = "unknown" ∧
    ∀ endpoint : String, goContains endpoint ".eks." = false →
      regionFromEndpoint endpoint = "unknown" := by
  refine ⟨by decide, by decide, ?_⟩
  intro endpoint h
  simp [regionFromEndpoint, h]

/-- C5 witness: the no-pattern clause applied at a concrete endpoint. -/
theorem C5_region_derivation_witness :
    regionFromEndpoint "https://plain.example.org" = "unknown" :=
  C5_region_derivation.2.2 "https://plain.example.org" (by decide)

/-! ## C6: the synthesized local entry always comes first -/

/-- C6: whatever the environment and store (empty store, unreadable store,
not in cluster), the listing starts with the synthesized local entry; in
the reachable-store case it is followed by exactly the persisted
descriptors in store order, and otherwise it is the whole answer. -/
theorem C6_local_entry_always_first (env : Env) (store : List Secret) :
    (ListEKSClusters env store).clusters.head? = some localClusterInfo ∧
    ((ListEKSClusters env store).clusters =
        localClusterInfo :: store.map mkClusterInfoFromSecret ∨
      (ListEKSClusters env store).clusters = [localClusterInfo]) := by
  unfold ListEKSClusters
  by_cases h1 : env.inCluster
  · by_cases h2 : env.clientsetOk
    · by_cases h3 : env.listSecretsOk
      · simp [h1, h2, h3, healLoop_clusters]
      · simp [h1, h2, h3]
    · simp [h1, h2]
  · simp [h1]

/-! ## C2: every resource operation captures the current client once -/

/-- C2: each resource operation handler depends on the registry only
through the single capture `reg 0` made at the start of the operation: two
registry histories that agree at capture time — in particular one where a
concurrent switch lands at any later instant — give identical operation
behaviour for list namespaces, list/get deployment, create/get/delete job,
fetch logs, watch job events, and list all managed jobs. -/
theorem C2_single_client_capture (reg reg' : Nat → Client) (api : ApiEnv)
    (ns name : String) (req : CreateJobRequest) (h : reg 0 = reg' 0) :
    GetNamespacesHandler reg api = GetNamespacesHandler reg' api ∧
    GetDeploymentsHandler reg api ns = GetDeploymentsHandler reg' api ns ∧
    GetDeploymentHandler reg api ns name = GetDeploymentHandler reg' api ns name ∧
    CreateJobHandler reg api req = CreateJobHandler reg' api req ∧
    GetJobHandler reg api ns name = GetJobHandler reg' api ns name ∧
    DeleteJobHandler reg api ns name = DeleteJobHandler reg' api ns name ∧
    GetJobLogsHandler reg api ns name = GetJobLogsHandler reg' api ns name ∧
    WatchJobHandler reg api ns name = WatchJobHandler reg' api ns name ∧
    GetAllJobsHandler reg api = GetAllJobsHandler reg' api := by
  refine ⟨?_, ?_, ?_, ?_, ?_, ?_, ?_, ?_, ?_⟩ <;>
    simp [GetNamespacesHandler, GetDeploymentsHandler, GetDeploymentHandler,
      CreateJobHandler, GetJobHandler, DeleteJobHandler, GetJobLogsHandler,
      WatchJobHandler, GetAllJobsHandler, h]

/-- C2 witness: a registry switched to `clientB` right after time 0
behaves, for every operation, exactly like the registry that stays on
`clientA`, against an API that reports which client served it. -/
theorem C2_single_client_capture_witness :
    GetNamespacesHandler regSwitched apiProbe = GetNamespacesHandler regConstant apiProbe ∧
    GetDeploymentsHandler regSwitched apiProbe "default" =
      GetDeploymentsHandler regConstant apiProbe "default" ∧
    GetDeploymentHandler regSwitched apiProbe "default" "web" =
      GetDeploymentHandler regConstant apiProbe "default" "web" ∧
    CreateJobHandler regSwitched apiProbe reqProbe =
      CreateJobHandler regConstant apiProbe reqProbe ∧
    GetJobHandler regSwitched apiProbe "default" "web" =
      GetJobHandler regConstant apiProbe "default" "web" ∧
    DeleteJobHandler regSwitched apiProbe "default" "web" =
      DeleteJobHandler regConstant apiProbe "default" "web" ∧
    GetJobLogsHandler regSwitched apiProbe "default" "web" =
      GetJobLogsHandler regConstant apiProbe "default" "web" ∧
    WatchJobHandler regSwitched apiProbe "default" "web" =
      WatchJobHandler regConstant apiProbe "default" "web" ∧
    GetAllJobsHandler regSwitched apiProbe = GetAllJobsHandler regConstant apiProbe :=
  C2_single_client_capture regSwitched regConstant apiProbe "default" "web" reqProbe rfl

/-! ## C3: removal of the reserved identity `local` -/

/-- C3 counterexample: with a stored record named `local`, the
remove-cluster operation succeeds and deletes it — refuting the claim that
`remove("local")` always fails and never deletes a stored record. -/
theorem C3_counterexample_local_removed :
    (DeleteCluster envHappy [localNamedSecret] "local").2 =
      .ok "Cluster deleted successfully" ∧
    (DeleteCluster envHappy [localNamedSecret] "local").1 = [] := by
  constructor <;> rfl

/-- C3 amended: the facade applies no reserved-identity check.  With a
working store client, `remove("local")` fails exactly when no stored
record is named `local` (the store-level not-found error), and deletes the
record when one exists. -/
theorem C3_remove_local_not_special (env : Env) (store : List Secret)
    (cfg : RestConfig) (hbase : baseConfig env = .ok cfg)
    (hcs : env.clientsetOk = true) :
    ((findSecret store "local").isSome = false →
      DeleteCluster env store "local" =
        (store, .internalError "failed to delete cluster secret: secrets not found")) ∧
    ((findSecret store "local").isSome = true →
      DeleteCluster env store "local" =
        (store.filter fun s => s.name != "local", .ok "Cluster deleted successfully")) := by
  constructor <;> intro hfind <;>
    simp [DeleteCluster, DeleteClusterSecret, hbase, hcs, hfind]

/-- C3 witness: the amended statement applied to the shadowed store. -/
theorem C3_remove_local_not_special_witness :
    DeleteCluster envHappy [localNamedSecret] "local" =
      ([localNamedSecret].filter fun s => s.name != "local",
        .ok "Cluster deleted successfully") :=
  (C3_remove_local_not_special envHappy [localNamedSecret]
    envHappy.inClusterConfig rfl rfl).2 (by decide)

/-! ## C4: registering without a trust anchor -/

/-- C4 counterexample: with a healthy identity provider, registering a
cluster with the trust anchor omitted persists a record whose trust anchor
is the freshly fetched `CERTDATA`, not an empty one — the store does fetch
the anchor itself instead of leaving it to lazy healing. -/
theorem C4_counterexample_create_fetches :
    CreateClusterSecret envHappy [] "c1" "Friendly" "arn:aws:iam::1:role/x"
        "https://ep.example.com" "" =
      .ok [mkStoredSecret "c1" "Friendly" "arn:aws:iam::1:role/x"
        "https://ep.example.com" "CERTDATA"] := by
  rfl

/-- C4 amended: when the trust anchor is omitted, `CreateClusterSecret`
first attempts to fetch one from the identity provider; it persists the
fetched anchor on success, and persists the record with an empty anchor
(leaving it to lazy healing at read time) only when the fetch fails. -/
theorem C4_create_fetches_when_omitted (env : Env) (store : List Secret)
    (clusterName friendlyName roleArn endpoint : String) (cfg : RestConfig)
    (hbase : baseConfig env = .ok cfg) (hcs : env.clientsetOk = true)
    (hnew : findSecret store clusterName = none) :
    (∀ e, fetchClusterCertificate env clusterName roleArn = .error e →
      CreateClusterSecret env store clusterName friendlyName roleArn endpoint "" =
        .ok (store ++ [mkStoredSecret clusterName friendlyName roleArn endpoint ""])) ∧
    (∀ ca, fetchClusterCertificate env clusterName roleArn = .ok ca →
      CreateClusterSecret env store clusterName friendlyName roleArn endpoint "" =
        .ok (store ++ [mkStoredSecret clusterName friendlyName roleArn endpoint ca])) := by
  constructor <;> intro x hx <;>
    simp [CreateClusterSecret, hbase, hcs, hnew, hx]

/-- C4 witness: the amended statement applied with a failing fetch, where
the record is indeed persisted with an empty anchor. -/
theorem C4_create_fetches_when_omitted_witness :
    CreateClusterSecret envNoDescribe [] "c1" "Friendly" "arn:aws:iam::1:role/x"
        "https://ep.example.com" "" =
      .ok [mkStoredSecret "c1" "Friendly" "arn:aws:iam::1:role/x"
        "https://ep.example.com" ""] :=
  (C4_create_fetches_when_omitted envNoDescribe [] "c1" "Friendly"
      "arn:aws:iam::1:role/x" "https://ep.example.com"
      envNoDescribe.inClusterConfig rfl rfl rfl).1
    "aws eks describe-cluster failed: AccessDenied" rfl

/-! ## C9: resolution with an empty trust anchor falls back to insecure -/

/-- C9: once the descriptor is found and the token exchange succeeds,
resolution of a non-local identity always succeeds; with an empty stored
trust anchor the produced configuration skips TLS verification, and with a
present anchor it verifies against exactly that anchor. -/
theorem C9_insecure_fallback (env : Env) (store : List Secret)
    (clusterName : String) (secret : Secret) (token : String) (cfg : RestConfig)
    (hname : clusterName ≠ "local")
    (hbase : baseConfig env = .ok cfg)
    (hcs : env.clientsetOk = true)
    (hfind : findSecret store clusterName = some secret)
    (htok : env.getToken secret.clusterName secret.roleArn = .ok token)
    (hbuild : env.buildClientConfigOk = true) :
    (secret.certificateAuthority = "" →
      getKubeconfigForCluster env store clusterName =
        .ok { host := secret.endpoint, bearerToken := token,
              certificateAuthorityData := "", insecureSkipTLSVerify := true }) ∧
    (secret.certificateAuthority ≠ "" →
      getKubeconfigForCluster env store clusterName =
        .ok { host := secret.endpoint, bearerToken := token,
              certificateAuthorityData := secret.certificateAuthority,
              insecureSkipTLSVerify := false }) := by
  constructor <;> intro hca <;>
    simp [getKubeconfigForCluster, hname, hbase, hcs, hfind, htok, hbuild, hca]

/-- C9 witness: resolving `prod-1`, whose stored anchor is empty, with a
reachable token exchange yields a skip-verification configuration. -/
theorem C9_insecure_fallback_witness :
    getKubeconfigForCluster envHappy [prodSecret] "prod-1" =
      .ok { host := "https://ABCDEF.r1.eks.amazonaws.com", bearerToken := "TOKEN",
            certificateAuthorityData := "", insecureSkipTLSVerify := true } :=
  (C9_insecure_fallback envHappy [prodSecret] "prod-1" prodSecret "TOKEN"
      envHappy.inClusterConfig (by decide) rfl rfl rfl rfl rfl).1 rfl

/-! ## C8: lazy healing is idempotent -/

/-- C8: on a store holding `prod-1` with an empty trust anchor and a
healthy identity provider, the first listing attempts exactly one fetch
(for `prod-1`) and persists the fetched anchor; the second listing on the
healed store attempts no fetch at all and leaves the store unchanged. -/
theorem C8_lazy_healing_idempotent :
    (ListEKSClusters envHappy [prodSecret]).fetched = ["prod-1"] ∧
    (ListEKSClusters envHappy [prodSecret]).store =
      [{ prodSecret with certificateAuthority := "CERTDATA" }] ∧
    (ListEKSClusters envHappy (ListEKSClusters envHappy [prodSecret]).store).fetched = [] ∧
    (ListEKSClusters envHappy (ListEKSClusters envHappy [prodSecret]).store).store =
      (ListEKSClusters envHappy [prodSecret]).store := by
  refine ⟨by decide, by decide, by decide, by decide⟩

/-! ## C7: a healing failure never breaks the listing -/

/-- Replacing the record of a different name does not change a lookup. -/
theorem findSecret_updateStore_ne (store : List Secret) (v : Secret) (n : String)
    (h : v.name ≠ n) :
    findSecret (updateStore store v.name v) n = findSecret store n := by
  have hv : (v.name == n) = false := by simpa using h
  induction store with
  | nil => rfl
  | cons t rest ih =>
    rw [show updateStore (t :: rest) v.name v =
        (if t.name == v.name then v else t) :: updateStore rest v.name v from rfl]
    by_cases ht : t.name = v.name
    · have h2 : (t.name == n) = false := by rw [ht]; exact hv
      rw [if_pos (by simpa using ht)]
      unfold findSecret
      simp only [List.find?_cons, hv, h2]
      exact ih
    · rw [if_neg (by simpa using ht)]
      unfold findSecret
      by_cases hp : (t.name == n) = true
      · simp only [List.find?_cons, hp]
      · have hp2 : (t.name == n) = false := by simpa using hp
        simp only [List.find?_cons, hp2]
        exact ih

/-- A healing step whose trust-anchor fetch fails writes nothing. -/
theorem applyHeal_of_fetch_error (env : Env) (s : Secret) (st : List Secret) (e : String)
    (hf : fetchClusterCertificate env s.clusterName s.roleArn = .error e) :
    applyHeal env s st = st := by
  by_cases hc : healCond s <;> simp [applyHeal, hc, hf]

/-- A healing step for one secret never touches records of other names. -/
theorem applyHeal_findSecret_ne (env : Env) (s : Secret) (st : List Secret) (n : String)
    (h : s.name ≠ n) :
    findSecret (applyHeal env s st) n = findSecret st n := by
  by_cases hc : healCond s
  · cases hfetch : fetchClusterCertificate env s.clusterName s.roleArn with
    | error e => simp [applyHeal, hc, hfetch]
    | ok ca =>
      by_cases hu : env.updateSecretOk s.name
      · simpa [applyHeal, hc, hfetch, hu] using
          findSecret_updateStore_ne st { s with certificateAuthority := ca } n h
      · simp [applyHeal, hc, hfetch, hu]
  · simp [applyHeal, hc]

/-- Through the whole healing loop, a secret whose own fetch fails — and
whose name no other processed secret shares — is still stored unchanged. -/
theorem healLoop_findSecret_preserved (env : Env) (s : Secret) (e : String)
    (hc : healCond s = true)
    (hf : fetchClusterCertificate env s.clusterName s.roleArn = .error e) :
    ∀ l st : List Secret, findSecret st s.name = some s →
      (∀ t ∈ l, t.name = s.name → t = s) →
      findSecret (healLoop env l st).store s.name = some s := by
  intro l
  induction l with
  | nil => intro st h1 _; simpa [healLoop] using h1
  | cons t rest ih =>
    intro st h1 h2
    have hstep : (healLoop env (t :: rest) st).store =
        (healLoop env rest (applyHeal env t st)).store := by
      simp [healLoop]
    rw [hstep]
    by_cases htn : t.name = s.name
    · have hts : t = s := h2 t (List.mem_cons_self t rest) htn
      subst hts
      rw [applyHeal_of_fetch_error env t st e hf]
      exact ih st h1 fun u hu hun => h2 u (List.mem_cons_of_mem t hu) hun
    · refine ih (applyHeal env t st) ?_ fun u hu hun => h2 u (List.mem_cons_of_mem t hu) hun
      rw [applyHeal_findSecret_ne env t st s.name htn]
      exact h1

/-- In a store with pairwise distinct secret names, lookup of the name of a
member finds exactly that member, and no other member shares the name. -/
theorem nodup_findSecret (store : List Secret) (s : Secret)
    (hnd : (store.map Secret.name).Nodup) (hs : s ∈ store) :
    findSecret store s.name = some s ∧ ∀ t ∈ store, t.name = s.name → t = s := by
  induction store with
  | nil => cases hs
  | cons t rest ih =>
    rw [List.map_cons, List.nodup_cons] at hnd
    obtain ⟨hnin, hnd'⟩ := hnd
    rcases List.mem_cons.mp hs with hst | hsr
    · subst hst
      constructor
      · have hself : (s.name == s.name) = true := by simp
        unfold findSecret
        simp only [List.find?_cons, hself]
      · intro u hu hun
        rcases List.mem_cons.mp hu with h1 | h2
        · exact h1
        · exact absurd (hun ▸ List.mem_map_of_mem Secret.name h2) hnin
    · have hne : t.name ≠ s.name := fun heq =>
        hnin (heq ▸ List.mem_map_of_mem Secret.name hsr)
      obtain ⟨ihf, ihall⟩ := ih hnd' hsr
      constructor
      · have hne2 : (t.name == s.name) = false := by simpa using hne
        unfold findSecret
        simp only [List.find?_cons, hne2]
        exact ihf
      · intro u hu hun
        rcases List.mem_cons.mp hu with h1 | h2
        · exact absurd (h1 ▸ hun) hne
        · exact ihall u h2 hun

/-- C7: when the listing reaches the store, a failed trust-anchor fetch
for one descriptor neither fails the listing nor drops any descriptor —
the cluster list is still the local entry followed by every stored
descriptor, the failed one included — and that descriptor stays stored
unchanged, its trust anchor still empty. -/
theorem C7_healing_failure_isolated (env : Env) (store : List Secret)
    (s : Secret) (e : String)
    (h1 : env.inCluster = true) (h2 : env.clientsetOk = true)
    (h3 : env.listSecretsOk = true)
    (hnd : (store.map Secret.name).Nodup) (hs : s ∈ store)
    (hc : healCond s = true)
    (hf : fetchClusterCertificate env s.clusterName s.roleArn = .error e) :
    (ListEKSClusters env store).clusters =
      localClusterInfo :: store.map mkClusterInfoFromSecret ∧
    mkClusterInfoFromSecret s ∈ (ListEKSClusters env store).clusters ∧
    findSecret (ListEKSClusters env store).store s.name = some s := by
  have hclusters : (ListEKSClusters env store).clusters =
      localClusterInfo :: store.map mkClusterInfoFromSecret := by
    simp [ListEKSClusters, h1, h2, h3, healLoop_clusters]
  have hstore : (ListEKSClusters env store).store = (healLoop env store store).store := by
    simp [ListEKSClusters, h1, h2, h3]
  obtain ⟨hfind, hall⟩ := nodup_findSecret store s hnd hs
  refine ⟨hclusters, ?_, ?_⟩
  · rw [hclusters]
    exact List.mem_cons_of_mem _ (List.mem_map_of_mem _ hs)
  · rw [hstore]
    exact healLoop_findSecret_preserved env s e hc hf store store hfind hall

/-- C7 witness: with the identity provider down, listing the store that
holds the unhealed `prod-1` still returns the local entry plus `prod-1`,
and keeps `prod-1` stored with its empty trust anchor. -/
theorem C7_healing_failure_isolated_witness :
    (ListEKSClusters envNoDescribe [prodSecret]).clusters =
      localClusterInfo :: [prodSecret].map mkClusterInfoFromSecret ∧
    mkClusterInfoFromSecret prodSecret ∈
      (ListEKSClusters envNoDescribe [prodSecret]).clusters ∧
    findSecret (ListEKSClusters envNoDescribe [prodSecret]).store prodSecret.name =
      some prodSecret :=
  C7_healing_failure_isolated envNoDescribe [prodSecret] prodSecret
    "aws eks describe-cluster failed: AccessDenied" rfl rfl rfl
    (by decide) (by decide) (by decide) rfl

/-! ## C10: the sanitized job name is a valid Kubernetes resource name -/

/-- Unfolding `String.toList` over the constructor. -/
theorem toList_mk (l : List Char) : (String.mk l).toList = l := rfl

/-- A string is empty exactly when its character list is. -/
theorem toList_eq_nil_iff (s : String) : s.toList = [] ↔ s = "" := by
  obtain ⟨data⟩ := s
  constructor
  · intro h
    rw [show String.mk data = String.mk [] from by rw [show data = [] from h]]
  · intro h
    rw [h]
    rfl

/-- A sublist of a list all of whose members satisfy `p` also satisfies
`p` everywhere. -/
theorem all_of_sublist {p : Char → Bool} {l₁ l₂ : List Char} (h : List.Sublist l₁ l₂)
    (h2 : l₂.all p = true) : l₁.all p = true := by
  rw [List.all_eq_true] at *
  exact fun c hc => h2 c (h.subset hc)

/-- The head surviving a `dropWhile p` refutes `p`. -/
theorem head?_dropWhile_all (p : Char → Bool) (l : List Char) :
    ((l.dropWhile p).head?.all fun c => !p c) = true := by
  induction l with
  | nil => rfl
  | cons a t ih =>
    by_cases h : p a
    · simpa [List.dropWhile_cons, h] using ih
    · have h2 : p a = false := by simpa using h
      simp [List.dropWhile_cons, h2]

/-- A right trim splits the list into the kept part and the trimmed tail. -/
theorem goTrimRight_toList_append (s cut : String) :
    (goTrimRight s cut).toList ++
      (s.toList.reverse.takeWhile fun c => cut.toList.contains c).reverse = s.toList := by
  unfold goTrimRight
  rw [toList_mk, ← List.reverse_append, List.takeWhile_append_dropWhile, List.reverse_reverse]

/-- Right trimming yields a sublist. -/
theorem goTrimRight_sublist (s cut : String) :
    List.Sublist (goTrimRight s cut).toList s.toList := by
  unfold goTrimRight
  rw [toList_mk]
  simpa using (List.dropWhile_sublist (l := s.toList.reverse)
    fun c => cut.toList.contains c).reverse

/-- The last character surviving a right trim is outside the cutset. -/
theorem goTrimRight_getLast (s cut : String) :
    ((goTrimRight s cut).toList.getLast?.all fun c => !(cut.toList.contains c)) = true := by
  have h : (goTrimRight s cut).toList =
      (s.toList.reverse.dropWhile fun c => cut.toList.contains c).reverse := rfl
  rw [h, List.getLast?_reverse]
  exact head?_dropWhile_all _ _

/-- Trimming both ends yields a sublist. -/
theorem goTrim_sublist (s cut : String) :
    List.Sublist (goTrim s cut).toList s.toList := by
  unfold goTrim
  rw [toList_mk]
  have h1 : List.Sublist (s.toList.dropWhile fun c => cut.toList.contains c) s.toList :=
    List.dropWhile_sublist _
  have h2 : List.Sublist (((s.toList.dropWhile fun c => cut.toList.contains c).reverse.dropWhile
      fun c => cut.toList.contains c)).reverse
      (s.toList.dropWhile fun c => cut.toList.contains c) := by
    simpa using (List.dropWhile_sublist
      (l := (s.toList.dropWhile fun c => cut.toList.contains c).reverse)
      fun c => cut.toList.contains c).reverse
  exact h2.trans h1

/-- Truncation preserves the first character. -/
theorem truncate63_head? (s : String) : (truncate63 s).toList.head? = s.toList.head? := by
  unfold truncate63
  by_cases h : s.toList.length > 63
  · rw [if_pos h, toList_mk]
    cases s.toList with
    | nil => rfl
    | cons c t => rfl
  · rw [if_neg h]

/-- Truncation caps the length at 63. -/
theorem truncate63_length (s : String) : (truncate63 s).toList.length ≤ 63 := by
  unfold truncate63
  by_cases h : s.toList.length > 63
  · rw [if_pos h, toList_mk]
    simp
  · rw [if_neg h]
    omega

/-- Truncation takes a prefix, hence a sublist. -/
theorem truncate63_sublist (s : String) :
    List.Sublist (truncate63 s).toList s.toList := by
  unfold truncate63
  by_cases h : s.toList.length > 63
  · rw [if_pos h, toList_mk]
    exact List.take_sublist 63 s.toList
  · rw [if_neg h]

/-- An alphanumeric character is not a hyphen. -/
theorem alnum_ne_hyphen {c : Char} (h : isLowerAlnum c = true) : (c != '-') = true := by
  rcases eq_or_ne c '-' with rfl | hne
  · exact absurd h (by decide)
  · simpa using hne

/-- A character outside the `"-"` cutset is not a hyphen. -/
theorem not_in_hyphen_cutset {c : Char} (h : (("-".toList).contains c) = false) :
    (c != '-') = true := by
  rcases eq_or_ne c '-' with rfl | hne
  · exact absurd h (by decide)
  · simpa using hne

/-- The whole post-replacement pipeline of `sanitizeJobName` produces a
valid Kubernetes resource name, whatever string the replacement stages
hand it. -/
theorem sanitized_pipeline_valid (u : String) :
    isValidK8sName
      (fallbackJob
        (goTrimRight
          (truncate63 (stripLeadingNonAlnum (goTrim (removeInvalidChars u) "-")))
          "-")) = true := by
  set s3 := stripLeadingNonAlnum (goTrim (removeInvalidChars u) "-") with hs3
  set s4 := truncate63 s3 with hs4
  set s5 := goTrimRight s4 "-" with hs5
  -- every character of s3 is a name character
  have hall1 : (removeInvalidChars u).toList.all isNameChar = true := by
    rw [List.all_eq_true]
    intro c hc
    exact (List.mem_filter.mp hc).2
  have hall3 : s3.toList.all isNameChar = true := by
    rw [hs3]
    exact all_of_sublist
      ((List.dropWhile_sublist _).trans (goTrim_sublist (removeInvalidChars u) "-"))
      hall1
  -- the first character of s3, if any, is alphanumeric
  have hhead3 : (s3.toList.head?.all fun c => isLowerAlnum c) = true := by
    rw [hs3]
    have := head?_dropWhile_all (fun c => !isLowerAlnum c)
      (goTrim (removeInvalidChars u) "-").toList
    simpa using this
  -- s4 facts
  have hall4 : s4.toList.all isNameChar = true :=
    all_of_sublist (truncate63_sublist s3) hall3
  have hhead4 : (s4.toList.head?.all fun c => isLowerAlnum c) = true := by
    rw [hs4, truncate63_head? s3]
    exact hhead3
  have hlen4 : s4.toList.length ≤ 63 := truncate63_length s3
  -- s5 facts
  have hsub5 : List.Sublist s5.toList s4.toList := goTrimRight_sublist s4 "-"
  have hall5 : s5.toList.all isNameChar = true := all_of_sublist hsub5 hall4
  have hlen5 : s5.toList.length ≤ 63 := le_trans hsub5.length_le hlen4
  have hlast5 : (s5.toList.getLast?.all fun c => c != '-') = true := by
    have := goTrimRight_getLast s4 "-"
    rw [← hs5] at this
    cases hg : s5.toList.getLast? with
    | none => rfl
    | some c =>
      rw [hg] at this
      exact not_in_hyphen_cutset (by simpa using this)
  have hhead5 : (s5.toList.head?.all fun c => c != '-') = true := by
    cases hh : s5.toList.head? with
    | none => rfl
    | some c =>
      have h45 : s4.toList.head? = some c := by
        have happ := goTrimRight_toList_append s4 "-"
        rw [← hs5] at happ
        cases hl : s5.toList with
        | nil => rw [hl] at hh; cases hh
        | cons a t =>
          rw [hl] at hh happ
          rw [← happ]
          simpa using hh
      rw [h45] at hhead4
      exact alnum_ne_hyphen (by simpa using hhead4)
  -- assemble, splitting on the empty fallback
  by_cases hempty : s5 = ""
  · rw [show fallbackJob s5 = "job" from by rw [fallbackJob, if_pos hempty]]
    decide
  · rw [show fallbackJob s5 = s5 from by rw [fallbackJob, if_neg hempty]]
    have hne : s5.toList ≠ [] := fun h => hempty ((toList_eq_nil_iff s5).mp h)
    unfold isValidK8sName
    rw [Bool.and_eq_true, Bool.and_eq_true, Bool.and_eq_true, Bool.and_eq_true]
    refine ⟨⟨⟨⟨?_, ?_⟩, hall5⟩, hhead5⟩, hlast5⟩
    · cases hl : s5.toList with
      | nil => exact absurd hl hne
      | cons a t => rfl
    · rw [Nat.ble_eq]
      exact hlen5

/-- C10: every input sanitizes to a non-empty string of at most 63
lowercase alphanumerics and hyphens that neither starts nor ends with a
hyphen, and an input with no salvageable character falls back to the
default name `job`. -/
theorem C10_sanitizeJobName_valid :
    (∀ name : String, isValidK8sName (sanitizeJobName name) = true) ∧
    sanitizeJobName "!!!" = "job" := by
  constructor
  · intro name
    unfold sanitizeJobName
    exact sanitized_pipeline_valid _
  · decide

end Spawnr
